import Mathlib

/-!
Verification of the retrieval-augmentation subsystem of the Marco cloud
agent: a shallow embedding of `src/rag/retriever.py`,
`src/processors/rag_processor.py` and `src/scripts/ingest_documents.py`,
with theorems settling the behavioural claims about retrieval scoring,
threshold filtering, context formatting, the context-injection state
machine and document chunking.

Numeric values that are Python floats in the source (distances,
similarities, thresholds) are embedded as rationals `ℚ`, so the arithmetic
`1 / (1 + d)` is exact.  Python string primitives (`str.strip`,
`str.split`, `str.join`, `enumerate`) are embedded as executable functions
over character lists with the same semantics.
-/

namespace Marco

/-! ## Python string primitives -/

/-- Embeds `str.strip()`: drop leading and trailing whitespace. -/
def pyStrip (s : String) : String :=
  ((s.toList.dropWhile Char.isWhitespace).reverse.dropWhile
    Char.isWhitespace).reverse.asString

/-- Embeds `sep.join(parts)` for a list of parts, as a structural recursion:
the empty list joins to `""`, a singleton to itself, and otherwise the
separator goes between consecutive parts. -/
def pyJoin (sep : String) : List String → String
  | [] => ""
  | [x] => x
  | x :: y :: rest => x ++ sep ++ pyJoin sep (y :: rest)

/-- Worker for `splitParagraphs`: scan the character list, cutting at each
non-overlapping occurrence of the two-character separator `\n\n`, with the
current piece accumulated in reverse. -/
def splitParagraphsGo : List Char → List Char → List (List Char)
  | [], acc => [acc.reverse]
  | '\n' :: '\n' :: rest, acc => acc.reverse :: splitParagraphsGo rest []
  | c :: rest, acc => splitParagraphsGo rest (c :: acc)

/-- Embeds `text.split("\n\n")`: split on every non-overlapping occurrence
of the separator, keeping empty pieces, as Python does. -/
def splitParagraphs (s : String) : List String :=
  (splitParagraphsGo s.toList []).map List.asString

/-- Embeds `enumerate(xs, start)`: pair every element with its position,
counting from `start`. -/
def pyEnumerate (start : Nat) : List α → List (Nat × α)
  | [] => []
  | x :: xs => (start, x) :: pyEnumerate (start + 1) xs

/-! ## Data model of `src/rag/retriever.py` -/

/-- One raw row returned by the LanceDB vector search
(`table.search(...).to_list()`).  The field `id` is optional because the
Python code reads it with `row.get("id", str(hash(row.get("content", ""))))`;
`dist` embeds the `_distance` field read by `row.get("_distance", 0)`. -/
structure Row where
  id : Option String
  content : String
  metadata : List (String × String)
  dist : ℚ
deriving Repr, DecidableEq

/-- Embeds the `RetrievedDocument` dataclass: a document retrieved from the
knowledge base. -/
structure RetrievedDocument where
  id : String
  content : String
  metadata : List (String × String)
  similarity : ℚ
deriving Repr, DecidableEq

/-- Embeds the fallback document id `str(hash(row.get("content", "")))`. -/
def hashId (content : String) : String :=
  toString content.hash

/-- An attached LanceDB table: its `search` takes the query embedding and
the `limit` and either returns the rows or raises (embedded as `Except`). -/
structure Table where
  search : List ℚ → Nat → Except String (List Row)

/-- The state of a `LanceDBRetriever`: the embedding provider
(`self._embeddings.embed_text`, which may raise), the optionally attached
table (`self._table`), and the instance defaults `self._match_count` and
`self._match_threshold`. -/
structure LanceDBRetriever where
  embed_text : String → Except String (List ℚ)
  table : Option Table
  match_count : Nat
  match_threshold : ℚ

/-- Embeds the Python expression `x or default` applied to an optional int
argument: `None` and the falsy value `0` both fall back to the default, as
in `match_count or self._match_count`. -/
def pyOrNat (x : Option Nat) (default : Nat) : Nat :=
  match x with
  | none => default
  | some n => if n = 0 then default else n

/-- Embeds the Python expression `x or default` applied to an optional
float argument: `None` and the falsy value `0.0` both fall back to the
default, as in `match_threshold or self._match_threshold`. -/
def pyOrQ (x : Option ℚ) (default : ℚ) : ℚ :=
  match x with
  | none => default
  | some q => if q = 0 then default else q

/-- The distance-to-similarity conversion of `retrieve_sync`:
`similarity = 1 / (1 + distance)`. -/
def similarity (distance : ℚ) : ℚ :=
  1 / (1 + distance)

/-- Builds the `RetrievedDocument` for one row, as in the loop body of
`retrieve_sync`. -/
def rowToDocument (row : Row) (sim : ℚ) : RetrievedDocument :=
  { id := match row.id with
      | some i => i
      | none => hashId row.content
    content := row.content
    metadata := row.metadata
    similarity := sim }

/-- The filtering loop of `retrieve_sync`: convert the distance of each row
to a similarity and keep the rows with `similarity >= threshold`, in
order. -/
def filterRows (threshold : ℚ) : List Row → List RetrievedDocument
  | [] => []
  | row :: rest =>
    let sim := similarity row.dist
    if threshold ≤ sim then
      rowToDocument row sim :: filterRows threshold rest
    else
      filterRows threshold rest

/-- Embeds `LanceDBRetriever.retrieve_sync`: returns `[]` when no table is
attached; embeds the query, searches the table with the effective limit,
filters the rows by the effective threshold; any exception from the
embedding call or the search is caught and yields `[]`. -/
def retrieve_sync (r : LanceDBRetriever) (query : String)
    (match_count : Option Nat) (match_threshold : Option ℚ) :
    List RetrievedDocument :=
  match r.table with
  | none => []
  | some table =>
    match r.embed_text query with
    | Except.error _ => []
    | Except.ok query_embedding =>
      match table.search query_embedding (pyOrNat match_count r.match_count) with
      | Except.error _ => []
      | Except.ok results =>
        filterRows (pyOrQ match_threshold r.match_threshold) results

/-- Embeds `LanceDBRetriever.format_context`: the empty list formats to
`""`; otherwise the parts `"Relevant information about me:"` and one
`"\n[i] content"` per document (`enumerate(documents, 1)`) are joined with
`"\n"`. -/
def format_context (documents : List RetrievedDocument) : String :=
  if documents.isEmpty then ""
  else
    let context_parts := "Relevant information about me:" ::
      ((pyEnumerate 1 documents).map fun p =>
        "\n[" ++ toString p.1 ++ "] " ++ p.2.content)
    pyJoin "\n" context_parts

/-! ## Ingestion chunking of `src/scripts/ingest_documents.py` -/

/-- The loop body of `split_into_chunks`: process one paragraph against the
accumulated `(chunks, current_chunk)` pair. -/
def chunkStep (max_chars : Nat) (acc : List String × String) (para0 : String) :
    List String × String :=
  let para := pyStrip para0
  if para = "" then acc
  else
    let chunks := acc.1
    let current_chunk := acc.2
    if max_chars < current_chunk.length + para.length + 2 then
      (if current_chunk ≠ "" then chunks ++ [pyStrip current_chunk] else chunks,
        para)
    else
      (chunks,
        if current_chunk ≠ "" then current_chunk ++ "\n\n" ++ para else para)

/-- Embeds `split_into_chunks(text, max_chars)`: a text within budget is
returned whole (stripped); otherwise the text is split on `"\n\n"` and the
paragraphs are greedily packed into chunks, with the fallback
`[text[:max_chars]]` when no chunk was produced. -/
def split_into_chunks (text : String) (max_chars : Nat) : List String :=
  if text.length ≤ max_chars then [pyStrip text]
  else
    let paragraphs := splitParagraphs text
    let result := paragraphs.foldl (chunkStep max_chars) ([], "")
    let chunks :=
      if result.2 ≠ "" then result.1 ++ [pyStrip result.2] else result.1
    if chunks ≠ [] then chunks else [(text.toList.take max_chars).asString]

/-! ## Context injection of `src/processors/rag_processor.py` -/

/-- One conversation message dict with its `role` and `content` entries. -/
structure Message where
  role : String
  content : String
deriving Repr, DecidableEq

/-- The frames the processor distinguishes: `TranscriptionFrame` (its
text), `LLMMessagesFrame` (its message list), and any other frame. -/
inductive Frame where
  | transcription (text : String)
  | llmMessages (messages : List Message)
  | other
deriving Repr, DecidableEq

/-- Pipecat frame directions. -/
inductive FrameDirection where
  | downstream
  | upstream
deriving Repr, DecidableEq

/-- The state of a `RAGContextProcessor`: the retriever, the configured
strategy string, `min_query_length`, and the mutable cache
`self._last_context`. -/
structure RAGContextProcessor where
  retriever : LanceDBRetriever
  strategy : String
  min_query_length : Nat
  last_context : Option String

/-- The inner loop of `_augment_system_message`, carrying the
`system_found` flag; returns the rebuilt list and the final flag. -/
def augmentGo (ctx : String) : List Message → Bool → List Message × Bool
  | [], system_found => ([], system_found)
  | msg :: rest, system_found =>
    if msg.role = "system" ∧ system_found = false then
      let tail := augmentGo ctx rest true
      ({ msg with content := msg.content ++ "\n\n" ++ ctx } :: tail.1, tail.2)
    else
      let tail := augmentGo ctx rest system_found
      (msg :: tail.1, tail.2)

/-- Embeds `RAGContextProcessor._augment_system_message`: append the
pending context to the first system message; if none exists, prepend a
fresh system message holding just the context. -/
def augment_system_message (ctx : String) (messages : List Message) :
    List Message :=
  let result := augmentGo ctx messages false
  if result.2 = false then ⟨"system", ctx⟩ :: result.1 else result.1

/-- The insertion-index scan of `_inject_context_message`: walk the list
with the running position `i`, remember `i + 1` after each system-role
message, and stop at the first user-role message. -/
def injectScan : List Message → Nat → Nat → Nat
  | [], _, insert_idx => insert_idx
  | msg :: rest, i, insert_idx =>
    if msg.role = "system" then injectScan rest (i + 1) (i + 1)
    else if msg.role = "user" then insert_idx
    else injectScan rest (i + 1) insert_idx

/-- Embeds `RAGContextProcessor._inject_context_message`: insert a new
system message carrying `"[Retrieved Context]\n" ++ ctx` at the scanned
index. -/
def inject_context_message (ctx : String) (messages : List Message) :
    List Message :=
  let insert_idx := injectScan messages 0 0
  messages.insertIdx insert_idx ⟨"system", "[Retrieved Context]\n" ++ ctx⟩

/-- Embeds `RAGContextProcessor._handle_transcription`: strip the text;
short queries pass through untouched; otherwise run retrieval and store
the formatted context in the cache when there are hits, else clear the
cache (also cleared on a retrieval exception, which the embedded
`retrieve_sync` already folds into the empty result).  The transcription
frame is forwarded unmodified in every case. -/
def handleTranscription (p : RAGContextProcessor) (text0 : String) :
    RAGContextProcessor × Frame :=
  let text := pyStrip text0
  if text.length < p.min_query_length then
    (p, Frame.transcription text0)
  else
    let documents := retrieve_sync p.retriever text none none
    if documents.isEmpty then
      ({ p with last_context := none }, Frame.transcription text0)
    else
      ({ p with last_context := some (format_context documents) },
        Frame.transcription text0)

/-- The strategy dispatch in `_handle_llm_messages`: `AUGMENT_SYSTEM` and
`INJECT_CONTEXT` apply their merge; any other strategy string leaves the
messages as they are. -/
def applyStrategy (strategy ctx : String) (messages : List Message) :
    List Message :=
  if strategy = "AUGMENT_SYSTEM" then augment_system_message ctx messages
  else if strategy = "INJECT_CONTEXT" then inject_context_message ctx messages
  else messages

/-- Embeds `RAGContextProcessor._handle_llm_messages`: with no truthy
pending context (`if not self._last_context`, so `None` and `""` both pass
through) the frame is forwarded and the state is unchanged; otherwise the
configured merge strategy is applied, the cache is cleared, and a new
`LLMMessagesFrame` with the merged messages is pushed. -/
def handleLLMMessages (p : RAGContextProcessor) (messages : List Message) :
    RAGContextProcessor × Frame :=
  match p.last_context with
  | none => (p, Frame.llmMessages messages)
  | some ctx =>
    if ctx = "" then (p, Frame.llmMessages messages)
    else
      ({ p with last_context := none },
        Frame.llmMessages (applyStrategy p.strategy ctx messages))

/-- Embeds `RAGContextProcessor.process_frame`: non-downstream frames pass
through untouched; downstream transcription and LLM-message frames go to
their handlers; every other downstream frame passes through. -/
def process_frame (p : RAGContextProcessor) (frame : Frame)
    (direction : FrameDirection) : RAGContextProcessor × Frame :=
  if direction ≠ FrameDirection.downstream then (p, frame)
  else
    match frame with
    | Frame.transcription text => handleTranscription p text
    | Frame.llmMessages messages => handleLLMMessages p messages
    | Frame.other => (p, frame)

/-! ## Theorems -/

/-- C5: for every raw distance `d ≥ 0`, the similarity computed by
`retrieve_sync` equals `1 / (1 + d)`; this value lies in `(0, 1]`, equals
`1` exactly when `d = 0`, and is strictly decreasing as `d` grows. -/
theorem similarity_spec (d : ℚ) (hd : 0 ≤ d) :
    similarity d = 1 / (1 + d) ∧ 0 < similarity d ∧ similarity d ≤ 1 ∧
    (similarity d = 1 ↔ d = 0) ∧
    ∀ e : ℚ, d < e → similarity e < similarity d := by
  have h1 : (0 : ℚ) < 1 + d := by linarith
  refine ⟨rfl, div_pos one_pos h1, ?_, ?_, ?_⟩
  · rw [similarity, div_le_one h1]; linarith
  · constructor
    · intro h
      rw [similarity, div_eq_iff (ne_of_gt h1)] at h
      linarith
    · intro h; rw [h, similarity]; norm_num
  · intro e he
    rw [similarity, similarity, div_lt_div_iff₀ (by linarith) h1]
    linarith

/-- Witness for `similarity_spec` at the concrete distance `2`. -/
theorem similarity_spec_witness :
    (0 : ℚ) ≤ 2 ∧ similarity 2 = 1 / (1 + 2) :=
  ⟨by norm_num, (similarity_spec 2 (by norm_num)).1⟩

/-- C10: passing the falsy per-call overrides `match_count = 0` or
`match_threshold = 0.0` to `retrieve_sync` behaves identically to passing
`None`: the instance defaults are used, because of the Python `or`
fallback. -/
theorem retrieve_sync_falsy_overrides (r : LanceDBRetriever) (query : String)
    (mc : Option Nat) (mt : Option ℚ) :
    retrieve_sync r query (some 0) mt = retrieve_sync r query none mt ∧
    retrieve_sync r query mc (some 0) = retrieve_sync r query mc none := by
  constructor <;> simp [retrieve_sync, pyOrNat, pyOrQ]

/-- C7: `retrieve_sync` degrades every retrieval-path failure to the empty
result: no attached table, a raised embedding call, and a raised vector
search each yield `[]` rather than an error (the embedding is a total
function into a list, so no error can propagate). -/
theorem retrieve_sync_never_raises (r : LanceDBRetriever) (q : String)
    (mc : Option Nat) (mt : Option ℚ) :
    (r.table = none → retrieve_sync r q mc mt = []) ∧
    (∀ e, r.embed_text q = Except.error e → retrieve_sync r q mc mt = []) ∧
    (∀ t emb e, r.table = some t → r.embed_text q = Except.ok emb →
      t.search emb (pyOrNat mc r.match_count) = Except.error e →
      retrieve_sync r q mc mt = []) := by
  refine ⟨?_, ?_, ?_⟩
  · intro h; simp [retrieve_sync, h]
  · intro e he
    cases htab : r.table with
    | none => simp [retrieve_sync, htab]
    | some t => simp [retrieve_sync, htab, he]
  · intro t emb e ht he hs
    simp [retrieve_sync, ht, he, hs]

/-- A retriever with no attached table. -/
def noTableRetriever : LanceDBRetriever :=
  ⟨fun _ => Except.ok [], none, 3, 7/10⟩

/-- A table whose search succeeds with no rows. -/
def emptyTable : Table := ⟨fun _ _ => Except.ok []⟩

/-- A retriever whose embedding call raises. -/
def embedFailRetriever : LanceDBRetriever :=
  ⟨fun _ => Except.error "embed down", some emptyTable, 3, 7/10⟩

/-- A table whose search raises. -/
def searchFailTable : Table := ⟨fun _ _ => Except.error "search down"⟩

/-- A retriever whose vector search raises. -/
def searchFailRetriever : LanceDBRetriever :=
  ⟨fun _ => Except.ok [1], some searchFailTable, 3, 7/10⟩

/-- Witness for `retrieve_sync_never_raises` on three concrete failing
retrievers. -/
theorem retrieve_sync_never_raises_witness :
    retrieve_sync noTableRetriever "q" none none = [] ∧
    retrieve_sync embedFailRetriever "q" none none = [] ∧
    retrieve_sync searchFailRetriever "q" none none = [] :=
  ⟨(retrieve_sync_never_raises noTableRetriever "q" none none).1 rfl,
   (retrieve_sync_never_raises embedFailRetriever "q" none none).2.1
     "embed down" rfl,
   (retrieve_sync_never_raises searchFailRetriever "q" none none).2.2
     searchFailTable [1] "search down" rfl rfl rfl⟩

/-- C9: `split_into_chunks` violates its budget on a text that is a single
paragraph longer than `max_chars`: the 7-character single-paragraph text
below is returned whole as one chunk of length 7, exceeding the budget 5
instead of being hard-truncated. -/
theorem split_into_chunks_over_budget :
    split_into_chunks "aaaaaaa" 5 = ["aaaaaaa"] ∧ 5 < "aaaaaaa".length := by
  constructor <;> decide

/-- Formulation of the amended formatting claim: the block that a
non-empty hit list must append after the lead-in - for each hit
(1-indexed, input order) a blank line followed by the line
`[i] content`. -/
def formatTail : Nat → List RetrievedDocument → String
  | _, [] => ""
  | i, d :: ds =>
    "\n" ++ "\n[" ++ toString i ++ "] " ++ d.content ++ formatTail (i + 1) ds

/-- Joining the lead-in with the enumerated per-hit parts produces the
lead-in followed by `formatTail`. -/
theorem pyJoin_formatTail (h : String) (i : Nat)
    (ds : List RetrievedDocument) :
    pyJoin "\n" (h :: (pyEnumerate i ds).map fun p =>
        "\n[" ++ toString p.1 ++ "] " ++ p.2.content) =
      h ++ formatTail i ds := by
  induction ds generalizing h i with
  | nil => simp [pyEnumerate, pyJoin, formatTail]
  | cons d ds ih =>
    simp only [pyEnumerate, List.map_cons, pyJoin, formatTail]
    rw [ih]
    simp only [String.append_assoc]

/-- C8 counterexample: the claim says the formatted block is the lead-in
line followed by exactly one line per hit, i.e. for one hit
`lead-in ++ "\n" ++ "[1] content"`; the code emits an additional blank
line before each hit line. -/
theorem format_context_counterexample :
    format_context [⟨"d1", "foo", [], 1⟩] =
      "Relevant information about me:\n\n[1] foo" ∧
    "Relevant information about me:\n\n[1] foo" ≠
      "Relevant information about me:" ++ "\n" ++ "[1] foo" := by
  constructor <;> decide

/-- C8 amended: `format_context` maps the empty hit list to `""`, and a
non-empty list of hits to the lead-in line followed by, for each hit in
input order with 1-based index `i`, a blank line and then the line
`[i] content`; being a function, the same input always yields the
identical string. -/
theorem format_context_amended (documents : List RetrievedDocument) :
    (documents = [] → format_context documents = "") ∧
    (documents ≠ [] →
      format_context documents =
        "Relevant information about me:" ++ formatTail 1 documents) := by
  constructor
  · intro h; rw [h]; rfl
  · intro h
    rw [format_context, if_neg (by simpa using h)]
    exact pyJoin_formatTail _ 1 documents

/-- Witness for `format_context_amended` at the empty list and a concrete
one-hit list. -/
theorem format_context_amended_witness :
    format_context [] = "" ∧
    format_context [⟨"d1", "foo", [], 1⟩] =
      "Relevant information about me:" ++ formatTail 1 [⟨"d1", "foo", [], 1⟩] :=
  ⟨(format_context_amended []).1 rfl,
   (format_context_amended [⟨"d1", "foo", [], 1⟩]).2 (by simp)⟩

/-- Once the `system_found` flag is set, `augmentGo` rebuilds the rest of
the list unchanged. -/
theorem augmentGo_found_flag (ctx : String) (ms : List Message) :
    augmentGo ctx ms true = (ms, true) := by
  induction ms with
  | nil => rfl
  | cons m ms ih => simp [augmentGo, ih]

/-- With no system-role message in the list, `augmentGo` rebuilds it
unchanged and leaves the flag unset. -/
theorem augmentGo_no_system (ctx : String) (ms : List Message)
    (h : ∀ x ∈ ms, x.role ≠ "system") :
    augmentGo ctx ms false = (ms, false) := by
  induction ms with
  | nil => rfl
  | cons m ms ih =>
    have hm : m.role ≠ "system" := h m (by simp)
    simp [augmentGo, hm, ih fun x hx => h x (by simp [hx])]

/-- On a list whose first system-role message is `m`, `augmentGo` appends
the context to the content of `m` and keeps everything else in place. -/
theorem augmentGo_first_system (ctx : String) (pre : List Message)
    (m : Message) (post : List Message)
    (hpre : ∀ x ∈ pre, x.role ≠ "system") (hm : m.role = "system") :
    augmentGo ctx (pre ++ m :: post) false =
      (pre ++ { m with content := m.content ++ "\n\n" ++ ctx } :: post,
        true) := by
  induction pre with
  | nil => simp [augmentGo, hm, augmentGo_found_flag]
  | cons x pre ih =>
    have hx : x.role ≠ "system" := hpre x (by simp)
    simp [augmentGo, hx, ih fun y hy => hpre y (by simp [hy])]

/-- C3: under the AUGMENT_SYSTEM strategy with pending context `ctx`, the
merge replaces the content of the first system-role message with the
original content, `"\n\n"`, and `ctx`, leaving every other message and the
order unchanged; with no system-role message it inserts `⟨"system", ctx⟩`
at the head of the list. -/
theorem augment_system_message_spec (ctx : String) :
    (∀ pre m post, (∀ x ∈ pre, x.role ≠ "system") → m.role = "system" →
      augment_system_message ctx (pre ++ m :: post) =
        pre ++ { m with content := m.content ++ "\n\n" ++ ctx } :: post) ∧
    (∀ messages, (∀ x ∈ messages, x.role ≠ "system") →
      augment_system_message ctx messages =
        ⟨"system", ctx⟩ :: messages) := by
  constructor
  · intro pre m post hpre hm
    simp [augment_system_message, augmentGo_first_system ctx pre m post hpre hm]
  · intro ms h
    simp [augment_system_message, augmentGo_no_system ctx ms h]

/-- Witness for `augment_system_message_spec` on the two concrete examples
of the spec. -/
theorem augment_system_message_spec_witness :
    augment_system_message "ctx" [⟨"system", "Be nice."⟩, ⟨"user", "hi"⟩] =
      [⟨"system", "Be nice.\n\nctx"⟩, ⟨"user", "hi"⟩] ∧
    augment_system_message "Relevant: [1] foo" [⟨"user", "hi"⟩] =
      [⟨"system", "Relevant: [1] foo"⟩, ⟨"user", "hi"⟩] := by
  constructor
  · have h := (augment_system_message_spec "ctx").1 []
      ⟨"system", "Be nice."⟩ [⟨"user", "hi"⟩] (by simp) rfl
    simpa using h
  · have h := (augment_system_message_spec "Relevant: [1] foo").2
      [⟨"user", "hi"⟩] (by simp)
    simpa using h

/-- C4 counterexample: on a message list whose system-role messages are
not a contiguous leading run, the code does not insert one past the
leading run (index 1 here) but after the last system-role message
preceding the first user-role message (index 3 here). -/
theorem inject_context_message_counterexample :
    inject_context_message "X"
        [⟨"system", "a"⟩, ⟨"assistant", "b"⟩, ⟨"system", "c"⟩,
          ⟨"user", "d"⟩] ≠
      [⟨"system", "a"⟩, ⟨"system", "[Retrieved Context]\nX"⟩,
        ⟨"assistant", "b"⟩, ⟨"system", "c"⟩, ⟨"user", "d"⟩] ∧
    inject_context_message "X"
        [⟨"system", "a"⟩, ⟨"assistant", "b"⟩, ⟨"system", "c"⟩,
          ⟨"user", "d"⟩] =
      [⟨"system", "a"⟩, ⟨"assistant", "b"⟩, ⟨"system", "c"⟩,
        ⟨"system", "[Retrieved Context]\nX"⟩, ⟨"user", "d"⟩] := by
  constructor <;> decide

/-- Formulation of the amended insertion rule: the messages preceding the
first user-role message. -/
def beforeFirstUser : List Message → List Message
  | [] => []
  | m :: ms => if m.role = "user" then [] else m :: beforeFirstUser ms

/-- Formulation of the amended insertion rule: the position of the last
system-role message in a list, if any. -/
def lastSystemPos : List Message → Option Nat
  | [] => none
  | m :: ms =>
    match lastSystemPos ms with
    | some j => some (j + 1)
    | none => if m.role = "system" then some 0 else none

/-- Formulation of the amended insertion rule: one past the last
system-role message that precedes the first user-role message, or `0` when
there is none. -/
def amendedInsertIdx (messages : List Message) : Nat :=
  match lastSystemPos (beforeFirstUser messages) with
  | none => 0
  | some j => j + 1

/-- The insertion-index scan of the code computes the amended rule, for
any running position and accumulator. -/
theorem injectScan_eq_amended (ms : List Message) : ∀ i acc : Nat,
    injectScan ms i acc =
      match lastSystemPos (beforeFirstUser ms) with
      | none => acc
      | some j => i + j + 1 := by
  induction ms with
  | nil => intro i acc; rfl
  | cons m ms ih =>
    intro i acc
    by_cases hs : m.role = "system"
    · have hu : m.role ≠ "user" := by rw [hs]; decide
      rw [injectScan, if_pos hs, ih (i + 1) (i + 1)]
      rw [beforeFirstUser, if_neg hu, lastSystemPos]
      cases h : lastSystemPos (beforeFirstUser ms) with
      | none => simp [hs]
      | some j => simp; omega
    · by_cases hu : m.role = "user"
      · rw [injectScan, if_neg hs, if_pos hu]
        rw [beforeFirstUser, if_pos hu]
        rfl
      · rw [injectScan, if_neg hs, if_neg hu, ih (i + 1) acc]
        rw [beforeFirstUser, if_neg hu, lastSystemPos]
        cases h : lastSystemPos (beforeFirstUser ms) with
        | none => simp [hs]
        | some j => simp; omega

/-- A position returned by `lastSystemPos` is a position in the list. -/
theorem lastSystemPos_lt_length (ms : List Message) (j : Nat)
    (h : lastSystemPos ms = some j) : j < ms.length := by
  induction ms generalizing j with
  | nil => simp [lastSystemPos] at h
  | cons m ms ih =>
    rw [lastSystemPos] at h
    cases hm : lastSystemPos ms with
    | none =>
      rw [hm] at h
      by_cases hs : m.role = "system"
      · rw [if_pos hs] at h
        simp at h
        simp [← h]
      · rw [if_neg hs] at h; simp at h
    | some k =>
      rw [hm] at h
      simp at h
      have := ih k hm
      simp [← h]
      omega

/-- The prefix before the first user-role message is no longer than the
whole list. -/
theorem beforeFirstUser_length_le (ms : List Message) :
    (beforeFirstUser ms).length ≤ ms.length := by
  induction ms with
  | nil => simp [beforeFirstUser]
  | cons m ms ih =>
    rw [beforeFirstUser]
    by_cases hu : m.role = "user"
    · simp [hu]
    · simp [hu]; omega

/-- The amended insertion index never exceeds the list length. -/
theorem amendedInsertIdx_le (ms : List Message) :
    amendedInsertIdx ms ≤ ms.length := by
  rw [amendedInsertIdx]
  cases h : lastSystemPos (beforeFirstUser ms) with
  | none => simp
  | some j =>
    have h1 := lastSystemPos_lt_length _ j h
    have h2 := beforeFirstUser_length_le ms
    simp
    omega

/-- C4 amended: under the INJECT_CONTEXT strategy with pending context
`ctx`, the merge inserts exactly one new message with role `system` and
content the fixed lead-in tag plus `ctx` at the index one past the last
system-role message preceding the first user-role message (0 when there
is none), leaving existing messages and their relative order unchanged
(the index is in bounds and the length grows by exactly one). -/
theorem inject_context_message_amended (ctx : String)
    (messages : List Message) :
    inject_context_message ctx messages =
      messages.insertIdx (amendedInsertIdx messages)
        ⟨"system", "[Retrieved Context]\n" ++ ctx⟩ ∧
    amendedInsertIdx messages ≤ messages.length ∧
    (inject_context_message ctx messages).length = messages.length + 1 := by
  have h1 : injectScan messages 0 0 = amendedInsertIdx messages := by
    rw [injectScan_eq_amended messages 0 0, amendedInsertIdx]
    cases lastSystemPos (beforeFirstUser messages) with
    | none => rfl
    | some j => simp
  refine ⟨by rw [inject_context_message, h1], amendedInsertIdx_le messages, ?_⟩
  show (inject_context_message ctx messages).length = messages.length + 1
  rw [inject_context_message, h1]
  rw [List.length_insertIdx _ _ (amendedInsertIdx_le messages)]

/-- The filtering loop keeps exactly the rows whose similarity clears the
threshold, in order. -/
theorem filterRows_eq_filter (th : ℚ) (rows : List Row) :
    filterRows th rows =
      (rows.filter fun row => th ≤ similarity row.dist).map
        fun row => rowToDocument row (similarity row.dist) := by
  induction rows with
  | nil => rfl
  | cons r rs ih =>
    by_cases h : th ≤ similarity r.dist
    · simp [filterRows, h, ih]
    · simp [filterRows, h, ih]

/-- C6: on a successful search, `retrieve_sync` keeps exactly the rows
whose computed similarity is at least the effective threshold, in the
returned order; in particular a row whose similarity exactly equals the
threshold is kept. -/
theorem retrieve_sync_threshold_filter (r : LanceDBRetriever) (q : String)
    (mc : Option Nat) (mt : Option ℚ) (t : Table) (emb : List ℚ)
    (rows : List Row) (ht : r.table = some t)
    (he : r.embed_text q = Except.ok emb)
    (hs : t.search emb (pyOrNat mc r.match_count) = Except.ok rows) :
    retrieve_sync r q mc mt =
      (rows.filter fun row =>
          pyOrQ mt r.match_threshold ≤ similarity row.dist).map
        (fun row => rowToDocument row (similarity row.dist)) ∧
    ∀ row ∈ rows, similarity row.dist = pyOrQ mt r.match_threshold →
      rowToDocument row (similarity row.dist) ∈ retrieve_sync r q mc mt := by
  have hmain : retrieve_sync r q mc mt =
      (rows.filter fun row =>
          pyOrQ mt r.match_threshold ≤ similarity row.dist).map
        fun row => rowToDocument row (similarity row.dist) := by
    simp only [retrieve_sync, ht, he, hs]
    rw [filterRows_eq_filter]
  refine ⟨hmain, ?_⟩
  intro row hrow hsim
  rw [hmain]
  refine List.mem_map_of_mem _ ?_
  rw [List.mem_filter]
  exact ⟨hrow, by rw [hsim]; simp⟩

/-- Rows for the threshold-filter witness: similarities `1`, `1/2` and
`1/10` against threshold `1/2`. -/
def c6rows : List Row :=
  [⟨some "a", "A", [], 0⟩, ⟨some "b", "B", [], 1⟩, ⟨some "c", "C", [], 9⟩]

/-- Table for the threshold-filter witness. -/
def c6table : Table := ⟨fun _ _ => Except.ok c6rows⟩

/-- Retriever for the threshold-filter witness. -/
def c6retriever : LanceDBRetriever :=
  ⟨fun _ => Except.ok [], some c6table, 3, 7/10⟩

/-- Witness for `retrieve_sync_threshold_filter`: with per-call threshold
`1/2`, the hit at exactly the threshold is kept, the one below is
dropped. -/
theorem retrieve_sync_threshold_filter_witness :
    retrieve_sync c6retriever "q" none (some (1/2)) =
      [⟨"a", "A", [], 1⟩, ⟨"b", "B", [], 1/2⟩] := by
  have h := (retrieve_sync_threshold_filter c6retriever "q" none
    (some (1/2)) c6table [] c6rows rfl rfl rfl).1
  rw [h]
  norm_num [c6rows, c6retriever, pyOrQ, similarity, rowToDocument,
    List.filter]

/-- Handling a qualifying downstream transcription leaves every field but
the cache alone and rewrites the cache from scratch: the formatted context
of the fresh retrieval when it has hits, `none` otherwise. -/
theorem process_transcription_state (p : RAGContextProcessor) (t : String)
    (h : p.min_query_length ≤ (pyStrip t).length) :
    (process_frame p (Frame.transcription t) FrameDirection.downstream).1 =
      { p with last_context :=
          if (retrieve_sync p.retriever (pyStrip t) none none).isEmpty then
            none
          else
            some (format_context
              (retrieve_sync p.retriever (pyStrip t) none none)) } := by
  have e1 : process_frame p (Frame.transcription t) FrameDirection.downstream
      = handleTranscription p t := by simp [process_frame]
  rw [e1, handleTranscription]
  rw [if_neg (not_lt.mpr h)]
  by_cases hd : (retrieve_sync p.retriever (pyStrip t) none none).isEmpty
  · simp [hd]
  · simp [hd]

/-- C1: after two qualifying transcriptions `t1` then `t2` with no
message-batch event in between, the pending-context cache holds exactly
the formatted result of the retrieval for `t2` (or is empty when that
retrieval had no hits or failed) - independent of `t1` and of the prior
cache, so a new retrieval always overwrites and never appends. -/
theorem cache_last_query_wins (p : RAGContextProcessor) (t1 t2 : String)
    (h1 : p.min_query_length ≤ (pyStrip t1).length)
    (h2 : p.min_query_length ≤ (pyStrip t2).length) :
    ((process_frame (process_frame p (Frame.transcription t1)
          FrameDirection.downstream).1 (Frame.transcription t2)
        FrameDirection.downstream).1).last_context =
      (if (retrieve_sync p.retriever (pyStrip t2) none none).isEmpty then
        none
      else
        some (format_context
          (retrieve_sync p.retriever (pyStrip t2) none none))) := by
  rw [process_transcription_state p t1 h1]
  rw [process_transcription_state _ t2 (by exact h2)]

/-- Rows for the state-machine witnesses. -/
def wRows : List Row := [⟨some "w", "W doc", [], 0⟩]

/-- Table for the state-machine witnesses. -/
def wTable : Table := ⟨fun _ _ => Except.ok wRows⟩

/-- Retriever for the state-machine witnesses. -/
def wRetriever : LanceDBRetriever :=
  ⟨fun _ => Except.ok [], some wTable, 3, 1/2⟩

/-- Processor for the last-query-wins witness. -/
def wProcessor : RAGContextProcessor :=
  ⟨wRetriever, "AUGMENT_SYSTEM", 3, none⟩

/-- Witness for `cache_last_query_wins` on two concrete qualifying
transcriptions. -/
theorem cache_last_query_wins_witness :
    ((process_frame (process_frame wProcessor
          (Frame.transcription "first query") FrameDirection.downstream).1
        (Frame.transcription "second one")
        FrameDirection.downstream).1).last_context =
      (if (retrieve_sync wProcessor.retriever (pyStrip "second one")
            none none).isEmpty then
        none
      else
        some (format_context (retrieve_sync wProcessor.retriever
          (pyStrip "second one") none none))) :=
  cache_last_query_wins wProcessor "first query" "second one"
    (by decide) (by decide)

/-- C2: consuming the pending context is destructive and unconditional -
a downstream message-batch event processed with a non-empty pending
context gets exactly one application of the configured merge strategy and
the cache is cleared, so a second consecutive message-batch event with no
intervening retrieval is forwarded unmodified with the state unchanged. -/
theorem pending_context_consumed_once (p : RAGContextProcessor)
    (ctx : String) (M1 M2 : List Message) (h : p.last_context = some ctx)
    (hne : ctx ≠ "") :
    process_frame p (Frame.llmMessages M1) FrameDirection.downstream =
      ({ p with last_context := none },
        Frame.llmMessages (applyStrategy p.strategy ctx M1)) ∧
    process_frame { p with last_context := none }
        (Frame.llmMessages M2) FrameDirection.downstream =
      ({ p with last_context := none }, Frame.llmMessages M2) := by
  constructor
  · simp [process_frame, handleLLMMessages, h, hne]
  · simp [process_frame, handleLLMMessages]

/-- Retriever for the consumption witness. -/
def c2retriever : LanceDBRetriever :=
  ⟨fun _ => Except.ok [], none, 3, 7/10⟩

/-- Processor with a pending context, for the consumption witness. -/
def c2processor : RAGContextProcessor :=
  ⟨c2retriever, "AUGMENT_SYSTEM", 10, some "ctx"⟩

/-- Witness for `pending_context_consumed_once` on a concrete processor
holding a pending context. -/
theorem pending_context_consumed_once_witness :
    process_frame c2processor (Frame.llmMessages [⟨"user", "hi"⟩])
        FrameDirection.downstream =
      ({ c2processor with last_context := none },
        Frame.llmMessages
          (applyStrategy c2processor.strategy "ctx" [⟨"user", "hi"⟩])) ∧
    process_frame { c2processor with last_context := none }
        (Frame.llmMessages [⟨"user", "bye"⟩]) FrameDirection.downstream =
      ({ c2processor with last_context := none },
        Frame.llmMessages [⟨"user", "bye"⟩]) :=
  pending_context_consumed_once c2processor "ctx" [⟨"user", "hi"⟩]
    [⟨"user", "bye"⟩] rfl (by decide)

end Marco
